import Mathlib

/-!
Shallow Lean embedding of the solr-manager CLI (allenday/qdrant-manager,
`solr_manager` package) and proofs about the claims of its specification.

The definitions mirror, function by function, the Python source:
  * `solr_manager/commands/batch.py`  (`_parse_ids`, `batch_operations`)
  * `solr_manager/commands/get.py`    (`_parse_ids`)
  * `solr_manager/commands/create.py` (`_check_collection_exists`, `create_collection`)
  * `solr_manager/commands/list.py`   (`list_collections`)
  * `solr_manager/utils.py`           (`load_and_override_config`,
                                       `initialize_solr_client`, `get_admin_base_url`)
  * `solr_manager/cli.py`             (`main`, error handling and exit codes)

Network interactions are modelled by oracles: Booleans (or `Nat → Bool`
functions) saying whether a given client call raises, plus the data the
server would return.  Handlers are modelled as functions producing the
trace of requests they send, whether an error was logged, and whether an
exception escaped the handler.
-/

namespace SolrManager

/-- ASCII whitespace stripped by Python's `str.strip()` (the Unicode-only
whitespace classes are omitted from the model). -/
def pyWS (c : Char) : Bool :=
  c = ' ' || c = '\t' || c = '\n' || c = '\r' || c = '\x0b' || c = '\x0c'

/-- Python `str.strip()` on the character list of a string: drop leading
whitespace, then drop trailing whitespace. -/
def pyStripList (l : List Char) : List Char :=
  ((l.dropWhile pyWS).reverse.dropWhile pyWS).reverse

/-- Python `str.strip()`. -/
def pyStrip (s : String) : String := ⟨pyStripList s.data⟩

/-- Python `str.rstrip('/')`: drop all trailing slash characters. -/
def pyRstripSlash (s : String) : String :=
  ⟨(s.data.reverse.dropWhile (fun c => c = '/')).reverse⟩

/-- Python truthiness of an optional string (absent or empty is falsy). -/
def strTruthy : Option String → Bool
  | none => false
  | some s => s != ""

/-- Python `str.split(sep)` for a single-character separator, over the
character list: splitting the empty string yields `[""]`, adjacent
separators yield empty fields. -/
def splitOnChar (sep : Char) : List Char → List (List Char)
  | [] => [[]]
  | c :: cs =>
      let r := splitOnChar sep cs
      if c = sep then [] :: r
      else
        match r with
        | [] => [[c]]
        | h :: t => (c :: h) :: t

/-- Python `str.split(sep)` for a single-character separator. -/
def pySplit (s : String) (sep : Char) : List String :=
  (splitOnChar sep s.data).map (fun l => ⟨l⟩)

/- ### Generic list lemmas used for `str.strip` properties -/

theorem head?_dropWhile_not {p : Char → Bool} {l : List Char} {c : Char}
    (h : (l.dropWhile p).head? = some c) : p c = false := by
  induction l with
  | nil => simp at h
  | cons a l ih =>
    rw [List.dropWhile_cons] at h
    by_cases hp : p a = true
    · exact ih (by simpa [hp] using h)
    · rw [if_neg hp] at h
      rw [List.head?_cons] at h
      have hac : a = c := Option.some.inj h
      subst hac
      simpa using hp

theorem getLast?_dropWhile_ne_nil {p : Char → Bool} {l : List Char}
    (h : l.dropWhile p ≠ []) : (l.dropWhile p).getLast? = l.getLast? := by
  induction l with
  | nil => simp at h
  | cons a l ih =>
    rw [List.dropWhile_cons]
    rw [List.dropWhile_cons] at h
    by_cases hp : p a = true
    · simp only [hp, if_true] at h ⊢
      have hl : l ≠ [] := by
        intro he
        subst he
        simp [List.dropWhile] at h
      rw [ih h]
      cases l with
      | nil => exact absurd rfl hl
      | cons b t => simp [List.getLast?_cons_cons]
    · simp [hp]

theorem pyStripList_getLast_not_ws {l : List Char} {c : Char}
    (h : (pyStripList l).getLast? = some c) : pyWS c = false := by
  unfold pyStripList at h
  rw [List.getLast?_reverse] at h
  exact head?_dropWhile_not h

theorem pyStripList_head_not_ws {l : List Char} {c : Char}
    (h : (pyStripList l).head? = some c) : pyWS c = false := by
  unfold pyStripList at h
  rw [List.head?_reverse] at h
  have hne : (l.dropWhile pyWS).reverse.dropWhile pyWS ≠ [] := by
    intro he
    rw [he] at h
    simp at h
  rw [getLast?_dropWhile_ne_nil hne] at h
  rw [List.getLast?_reverse] at h
  exact head?_dropWhile_not h

/- ### `_parse_ids` (batch.py lines 13-27, get.py lines 9-23) -/

/--
Model of `_parse_ids(args)`.

`idFileContent` models the `--id-file` argument: `none` when the flag is
absent (or names an empty path, which Python treats as falsy),
`some none` when opening/reading the file raises, and `some (some lines)`
when the file reads successfully as the given list of lines.
`ids` models the `--ids` argument string.  The result is `none` exactly
when the Python helper returns `None` (a read error).
-/
def parseIds (idFileContent : Option (Option (List String))) (ids : Option String) :
    Option (List String) :=
  match idFileContent with
  | some (some lines) =>
      some ((lines.filter (fun line => pyStrip line != "")).map pyStrip)
  | some none => none
  | none =>
      match ids with
      | some s =>
          if s != "" then
            some (((pySplit s ',').filter (fun i => pyStrip i != "")).map pyStrip)
          else
            some []
      | none => some []

theorem mem_strip_filter_map {lines : List String} {s : String}
    (h : s ∈ (lines.filter (fun line => pyStrip line != "")).map pyStrip) :
    s ≠ "" ∧ (∀ c, s.data.head? = some c → pyWS c = false) ∧
      (∀ c, s.data.getLast? = some c → pyWS c = false) := by
  rcases List.mem_map.mp h with ⟨line, hline, hs⟩
  rcases List.mem_filter.mp hline with ⟨_, hne⟩
  have hne' : pyStrip line ≠ "" := by simpa using hne
  subst hs
  refine ⟨hne', ?_, ?_⟩
  · intro c hc
    exact pyStripList_head_not_ws (l := line.data) hc
  · intro c hc
    exact pyStripList_getLast_not_ws (l := line.data) hc

/- ### Configuration and client initialization (utils.py) -/

/--
The `connection` dictionary a profile provides (config.py `load_config`
returns it; absent keys are `none`).  `timeout` is the YAML integer.
-/
structure ConnConfig where
  solr_url : Option String := none
  zk_hosts : Option String := none
  username : Option String := none
  password : Option String := none
  collection : Option String := none
  timeout : Option Int := none
deriving DecidableEq, Repr

/-- The parsed command-line arguments relevant to connection handling
(cli.py: `--solr-url`, `--zk-hosts`, `--username`, `--password`,
`--collection`, `--timeout`; absent flags are `none`). -/
structure CliArgs where
  solr_url : Option String := none
  zk_hosts : Option String := none
  username : Option String := none
  password : Option String := none
  collection : Option String := none
  timeout : Option Int := none
deriving DecidableEq, Repr

/--
Model of `load_and_override_config(args)` (utils.py lines 25-77) applied
to an already-loaded profile `base`.  It overrides `solr_url`,
`collection`, `zk_hosts`, `username` and `password` from truthy flags, in
the source's order, then validates the required keys.  Note that the
source never reads `args.timeout`.  `kazooImported` models whether the
optional `kazoo` dependency is installed.
-/
def load_and_override_config (base : ConnConfig) (args : CliArgs)
    (kazooImported : Bool) : Option ConnConfig :=
  let c1 := if strTruthy args.solr_url then { base with solr_url := args.solr_url } else base
  let c2 := if strTruthy args.collection then { c1 with collection := args.collection } else c1
  let c3 := if strTruthy args.zk_hosts then { c2 with zk_hosts := args.zk_hosts } else c2
  let c4 := if strTruthy args.username then { c3 with username := args.username } else c3
  let c5 := if strTruthy args.password then { c4 with password := args.password } else c4
  if strTruthy c5.zk_hosts then
    if !kazooImported then none
    else if strTruthy c5.collection then some c5 else none
  else if strTruthy c5.solr_url then
    if strTruthy c5.collection then some c5 else none
  else none

/-- The pysolr client handle built by `initialize_solr_client`: the pieces
of configuration actually passed to the `pysolr.Solr` / `pysolr.SolrCloud`
constructor. -/
structure SolrClientDesc where
  url : Option String := none
  zk : Option String := none
  collection : String := ""
  auth : Option (String × String) := none
  timeout : Int := 30
deriving DecidableEq, Repr

/--
Model of `initialize_solr_client(config, collection_name)` (utils.py
lines 79-139).  The timeout handed to the client constructor is
`config.get('timeout', 30)`: the profile value when present, else 30 —
the command-line `--timeout` flag plays no part because
`load_and_override_config` never copies it into the config.
-/
def initialize_solr_client (config : ConnConfig) (collectionName : String)
    (kazooImported : Bool) : Option SolrClientDesc :=
  let auth : Option (String × String) :=
    if strTruthy config.username && strTruthy config.password then
      some (config.username.getD "", config.password.getD "")
    else none
  let timeout : Int := config.timeout.getD 30
  if strTruthy config.zk_hosts then
    if kazooImported then
      some { url := none, zk := config.zk_hosts, collection := collectionName,
             auth := auth, timeout := timeout }
    else none
  else if strTruthy config.solr_url then
    some { url := some (pyRstripSlash (config.solr_url.getD "") ++ "/" ++ collectionName),
           zk := none, collection := collectionName, auth := auth, timeout := timeout }
  else none

/- ### ZooKeeper live-node discovery (utils.py `get_admin_base_url`, lines 149-215) -/

/--
Parsing of an ephemeral live-node znode name (utils.py lines 185-202):
split on `':'` into exactly two parts, split the second part on `'_'`
into exactly two parts, and assemble `http://host:port/context`; any
other shape yields no URL.
-/
def parseLiveNodeName (node : String) : Option String :=
  match pySplit node ':' with
  | [host, portContext] =>
      match pySplit portContext '_' with
      | [port, context] => some ("http://" ++ host ++ ":" ++ port ++ "/" ++ context)
      | _ => none
  | _ => none

/--
Model of `get_admin_base_url(config)` (utils.py lines 149-215).  The
oracle arguments: `kazooImported` (is `kazoo` installed), `zkError`
(does connecting to ZooKeeper or listing `/live_nodes` raise),
`liveNodes` (the children of `/live_nodes`), and `pick` (which element
`random.choice` selects, taken modulo the list length).
-/
def get_admin_base_url (config : ConnConfig) (kazooImported : Bool)
    (zkError : Bool) (liveNodes : List String) (pick : Nat) : Option String :=
  if strTruthy config.solr_url then
    some (pyRstripSlash (config.solr_url.getD ""))
  else if strTruthy config.zk_hosts then
    if !kazooImported then none
    else if zkError then none
    else if liveNodes.isEmpty then none
    else parseLiveNodeName (liveNodes.getD (pick % liveNodes.length) "")
  else none

/- ### Batch operations (batch.py `batch_operations`, lines 54-153) -/

/-- `math.ceil(n / b)` for naturals (batch.py line 95). -/
def numBatches (n b : Nat) : Nat := (n + b - 1) / b

/-- The chunks produced by the loop at batch.py lines 98-99:
`docs_to_add[i*batch_size : (i+1)*batch_size]` for
`i in range(num_batches)`. -/
def chunksList {α : Type} (docs : List α) (b : Nat) : List (List α) :=
  (List.range (numBatches docs.length b)).map (fun i => (docs.drop (i * b)).take b)

/-- A client call made by the `batch` handler, with whether it succeeded
(`ok = false` means the pysolr call raised). -/
inductive BatchEv (α : Type) where
  | add (chunk : List α) (ok : Bool)
  | commit (ok : Bool)
  | deleteByIds (ids : List String) (commit : Bool)
  | deleteByQuery (q : String) (commit : Bool)
deriving DecidableEq, Repr

/-- The loop of batch.py lines 98-101: send each chunk with
`client.add(batch_docs, commit=False)`; a raising call aborts the loop
(the exception propagates out of the `for`).  `addErr i` says whether the
`i`-th add call raises; `i` is the index of the next chunk.  Returns the
trace of add calls and whether the loop completed without raising. -/
def runAddLoop {α : Type} (addErr : Nat → Bool) :
    List (List α) → Nat → List (BatchEv α) × Bool
  | [], _ => ([], true)
  | c :: rest, i =>
      if addErr i then ([BatchEv.add c false], false)
      else
        let r := runAddLoop addErr rest (i + 1)
        (BatchEv.add c true :: r.1, r.2)

/-- Result of one run of the add/update branch of `batch_operations`:
the trace of client calls, whether an error was logged (the `except`
blocks at batch.py lines 112-117), and whether an exception escaped the
handler (never: every exception inside the `try` is caught). -/
structure BatchRunResult (α : Type) where
  trace : List (BatchEv α)
  errLogged : Bool
  raised : Bool
deriving DecidableEq, Repr

/--
Model of the `--add-update` branch of `batch_operations` (batch.py
lines 87-117) for a positive batch size: an empty (falsy) document list
is rejected with a logged error before anything is sent (line 89-91);
otherwise chunk the documents, send each chunk, then `client.commit()`
if `commit`.  A raising add call skips the commit and lands in the
`except` blocks, which log and return; a raising commit is likewise
caught and logged.  (A batch size of `0` is outside this model: there
`math.ceil(n / 0)` raises `ZeroDivisionError` before the `try`.)
-/
def batchAddRun {α : Type} (docs : List α) (b : Nat) (commit : Bool)
    (addErr : Nat → Bool) (commitErr : Bool) : BatchRunResult α :=
  if docs.isEmpty then
    { trace := [], errLogged := true, raised := false }
  else if (runAddLoop addErr (chunksList docs b) 0).2 then
    if commit then
      { trace := (runAddLoop addErr (chunksList docs b) 0).1 ++ [BatchEv.commit (!commitErr)],
        errLogged := commitErr, raised := false }
    else
      { trace := (runAddLoop addErr (chunksList docs b) 0).1,
        errLogged := false, raised := false }
  else
    { trace := (runAddLoop addErr (chunksList docs b) 0).1,
      errLogged := true, raised := false }

/-- cli.py lines 299-304 plus normal fall-through: `main` exits 1 when the
dispatched handler raises, and the interpreter exits 0 otherwise. -/
def processExit (handlerRaises : Bool) : Nat := if handlerRaises then 1 else 0

/--
Model of the `--delete-docs` branch of `batch_operations` (batch.py
lines 120-148), starting from the argument parsing at lines 62-71:
`doc_ids = _parse_ids(args)` (an error return aborts the handler),
`solr_query = args.query if args.query else None`, then delete by IDs if
any were given, else delete by query if one was given.  Returns the
trace of client calls.
-/
def batchDeleteRun (α : Type) (idFileContent : Option (Option (List String)))
    (ids : Option String) (query : Option String) (commit : Bool) : List (BatchEv α) :=
  match parseIds idFileContent ids with
  | none => []
  | some docIds =>
      let solrQuery : Option String :=
        match query with
        | some q => if q != "" then some q else none
        | none => none
      if !docIds.isEmpty then [BatchEv.deleteByIds docIds commit]
      else
        match solrQuery with
        | some q => [BatchEv.deleteByQuery q commit]
        | none => []

/- ### Collection creation (create.py, lines 25-130) -/

/-- A request sent by the `create` handler, with whether it succeeded. -/
inductive CEvent where
  | list (ok : Bool)
  | delete (ok : Bool)
  | create (ok : Bool)
deriving DecidableEq, Repr

/-- create.py `_get_base_solr_url` (lines 18-22): the direct URL with
trailing slashes removed, or nothing. -/
def baseSolrUrl (config : ConnConfig) : Option String :=
  if strTruthy config.solr_url then some (pyRstripSlash (config.solr_url.getD ""))
  else none

/--
Model of `create_collection` (create.py lines 44-130) as the trace of
requests it sends.  Oracle arguments: `checkRaises` (does the LIST
request of `_check_collection_exists` raise — the helper then catches it
and returns `False`), `serverCols` (the collection list a successful
LIST returns), `deleteOk` / `createOk` (whether the DELETE / CREATE
requests succeed; `delete_collection` and the CREATE `try` both catch
their own errors).
-/
def createRun (collectionName configSetName : String) (overwrite : Bool)
    (config : ConnConfig) (checkRaises : Bool) (serverCols : List String)
    (deleteOk createOk : Bool) : List CEvent :=
  if collectionName = "" then []
  else if configSetName = "" then []
  else
    match baseSolrUrl config with
    | none => []
    | some _ =>
        let collectionExists := !checkRaises && serverCols.contains collectionName
        if collectionExists then
          if overwrite then
            [CEvent.list true, CEvent.delete deleteOk, CEvent.create createOk]
          else
            [CEvent.list true]
        else
          [CEvent.list (!checkRaises), CEvent.create createOk]

/- ### Listing collections (list.py `list_collections`, lines 10-54) -/

/--
Model of the output of `list_collections` once the server has returned
the collection list (list.py lines 30-37): Python's `sorted` on strings
is modelled by insertion sort over Lean's lexicographic `String` order.
-/
def listPrintedLines (collections : List String) : List String :=
  if collections.isEmpty then ["No collections found."]
  else
    "Available collections:" ::
      (List.insertionSort (fun a b => a ≤ b) collections).map (fun n => "  - " ++ n)

/- ### Lemmas about the chunking loop -/

theorem chunksList_nil {α : Type} (b : Nat) : chunksList ([] : List α) b = [] := by
  unfold chunksList numBatches
  cases b with
  | zero => simp
  | succ b => simp [Nat.div_eq_of_lt (Nat.lt_succ_self b)]

theorem chunksList_eq_cons {α : Type} {docs : List α} {b : Nat} (hb : 0 < b)
    (hne : docs ≠ []) :
    chunksList docs b = docs.take b :: chunksList (docs.drop b) b := by
  have hn : 0 < docs.length := List.length_pos.mpr hne
  have hm : numBatches docs.length b = (docs.length - 1) / b + 1 := by
    unfold numBatches
    have h1 : docs.length + b - 1 = (docs.length - 1) + b := by omega
    rw [h1, Nat.add_div_right _ hb]
  have hm2 : numBatches (docs.drop b).length b = (docs.length - 1) / b := by
    rw [List.length_drop]
    by_cases hle : docs.length ≤ b
    · have he : docs.length - b = 0 := by omega
      rw [he]
      unfold numBatches
      have h2 : (docs.length - 1) / b = 0 := Nat.div_eq_of_lt (by omega)
      rw [h2]
      exact Nat.div_eq_of_lt (by omega)
    · push_neg at hle
      unfold numBatches
      have h2 : docs.length - b + b - 1 = (docs.length - b - 1) + b := by omega
      have h3 : docs.length - 1 = (docs.length - b - 1) + b := by omega
      rw [h2, Nat.add_div_right _ hb, h3, Nat.add_div_right _ hb]
  unfold chunksList
  rw [hm, hm2, List.range_succ_eq_map, List.map_cons, List.map_map]
  refine congrArg₂ _ (by simp) ?_
  refine List.map_congr_left ?_
  intro i _
  show (docs.drop ((i + 1) * b)).take b = ((docs.drop b).drop (i * b)).take b
  rw [List.drop_drop]
  have h4 : (i + 1) * b = b + i * b := by ring
  rw [h4]

theorem chunksList_join {α : Type} {b : Nat} (hb : 0 < b) (docs : List α) :
    (chunksList docs b).flatten = docs := by
  have H : ∀ n (docs : List α), docs.length ≤ n → (chunksList docs b).flatten = docs := by
    intro n
    induction n with
    | zero =>
        intro docs h
        have he : docs = [] := by
          cases docs with
          | nil => rfl
          | cons a t => simp at h
        rw [he, chunksList_nil]
        rfl
    | succ n ih =>
        intro docs h
        cases docs with
        | nil => rw [chunksList_nil]; rfl
        | cons a t =>
            rw [chunksList_eq_cons hb (by simp), List.flatten_cons]
            rw [ih ((a :: t).drop b) (by simp only [List.length_drop]; simp at h ⊢; omega)]
            exact List.take_append_drop b (a :: t)
  exact H docs.length docs (le_refl _)

theorem chunksList_length {α : Type} (docs : List α) (b : Nat) :
    (chunksList docs b).length = numBatches docs.length b := by
  simp [chunksList]

theorem chunksList_get {α : Type} (docs : List α) (b : Nat) (i : Nat)
    (h : i < (chunksList docs b).length) :
    (chunksList docs b).get ⟨i, h⟩ = (docs.drop (i * b)).take b := by
  simp [chunksList, List.get_eq_getElem]

theorem runAddLoop_all_ok {α : Type} (addErr : Nat → Bool)
    (hall : ∀ i, addErr i = false) :
    ∀ (chunks : List (List α)) (off : Nat),
      runAddLoop addErr chunks off = (chunks.map (fun c => BatchEv.add c true), true) := by
  intro chunks
  induction chunks with
  | nil => intro off; rfl
  | cons c rest ih =>
      intro off
      simp [runAddLoop, hall off, ih (off + 1)]

theorem runAddLoop_break {α : Type} (addErr : Nat → Bool) :
    ∀ (pre : List (List α)) (c : List α) (rest : List (List α)) (off : Nat),
      (∀ j, j < pre.length → addErr (off + j) = false) →
      addErr (off + pre.length) = true →
      runAddLoop addErr (pre ++ c :: rest) off =
        (pre.map (fun x => BatchEv.add x true) ++ [BatchEv.add c false], false) := by
  intro pre
  induction pre with
  | nil =>
      intro c rest off _ hk
      simp only [List.length_nil, Nat.add_zero] at hk
      simp [runAddLoop, hk]
  | cons a pre ih =>
      intro c rest off hlt hk
      have h0 : addErr off = false := by simpa using hlt 0 (by simp)
      have hrec := ih c rest (off + 1)
        (fun j hj => by
          have h1 := hlt (j + 1) (by simpa using Nat.succ_lt_succ hj)
          have h2 : off + (j + 1) = off + 1 + j := by omega
          rwa [h2] at h1)
        (by
          have h2 : off + (a :: pre).length = off + 1 + pre.length := by simp; omega
          rwa [h2] at hk)
      simp [runAddLoop, h0, List.append_eq, hrec]

theorem runAddLoop_cons {α : Type} (addErr : Nat → Bool) (c : List α)
    (rest : List (List α)) (off : Nat) :
    runAddLoop addErr (c :: rest) off =
      if addErr off then ([BatchEv.add c false], false)
      else (BatchEv.add c true :: (runAddLoop addErr rest (off + 1)).1,
            (runAddLoop addErr rest (off + 1)).2) := rfl

theorem runAddLoop_events_ok {α : Type} (addErr : Nat → Bool) :
    ∀ (chunks : List (List α)) (off : Nat),
      (runAddLoop addErr chunks off).2 = true →
      ∀ ev ∈ (runAddLoop addErr chunks off).1, ∃ c, ev = BatchEv.add c true := by
  intro chunks
  induction chunks with
  | nil => intro off _ ev hev; simp [runAddLoop] at hev
  | cons c rest ih =>
      intro off hok ev hev
      by_cases he : addErr off = true
      · rw [runAddLoop_cons] at hok
        simp [he] at hok
      · have he' : addErr off = false := by simpa using he
        rw [runAddLoop_cons] at hok hev
        simp only [he', Bool.false_eq_true, if_false] at hok hev
        rcases List.mem_cons.mp hev with hev | hev
        · exact ⟨c, hev⟩
        · exact ih (off + 1) hok ev hev

/--
**C1.**  For every non-empty document list of length `n` and positive
batch size `b`, the add/update branch of `batch_operations` sends exactly
`⌈n / b⌉` chunks (for naturals, `(n + b - 1) / b`), chunk `i` being the
slice of the documents from index `i * b` to `(i + 1) * b` exclusive
(`List.drop (i * b)` then `List.take b`); the chunks are sent
sequentially in index order (the trace of client calls is exactly the
chunk list in order, followed only by the final commit), and their
concatenation is the original document list, so every document appears
in exactly one chunk, in its original order.
-/
theorem batch_chunking_spec {α : Type} (docs : List α) (b : Nat)
    (hb : 0 < b) (hne : docs ≠ []) (commit : Bool) (commitErr : Bool) :
    (chunksList docs b).length = (docs.length + b - 1) / b
    ∧ (∀ i (h : i < (chunksList docs b).length),
        (chunksList docs b).get ⟨i, h⟩ = (docs.drop (i * b)).take b)
    ∧ (chunksList docs b).flatten = docs
    ∧ (batchAddRun docs b commit (fun _ => false) commitErr).trace =
        (chunksList docs b).map (fun c => BatchEv.add c true)
          ++ (if commit then [BatchEv.commit (!commitErr)] else []) := by
  refine ⟨?_, chunksList_get docs b, chunksList_join hb docs, ?_⟩
  · rw [chunksList_length]; rfl
  · have hr := runAddLoop_all_ok (fun _ => false) (fun _ => rfl)
      (chunksList docs b) 0
    have hie : docs.isEmpty = false := by
      cases docs with
      | nil => exact absurd rfl hne
      | cons a t => rfl
    unfold batchAddRun
    rw [hr]
    cases commit <;> simp [hie]

/-- Concrete instance of `batch_chunking_spec`: three documents in
batches of two. -/
theorem batch_chunking_spec_witness :
    (chunksList [10, 20, 30] 2).length = (3 + 2 - 1) / 2
    ∧ (chunksList [10, 20, 30] 2).flatten = [10, 20, 30]
    ∧ (batchAddRun [10, 20, 30] 2 true (fun _ => false) false).trace =
        (chunksList [10, 20, 30] 2).map (fun c => BatchEv.add c true)
          ++ [BatchEv.commit true] := by
  have h := batch_chunking_spec [10, 20, 30] 2 (by decide) (by decide) true false
  exact ⟨h.1, h.2.2.1, by rw [h.2.2.2]; rfl⟩

/--
**C2.**  If the `k`-th add call of the add/update branch raises (and the
earlier ones do not), the trace stops at the failed chunk `k`: the calls
sent are exactly the successful chunks `0..k-1` followed by the failed
chunk `k`, no later chunk is sent, no commit is issued, and the error is
logged.
-/
theorem batch_abort_on_failed_chunk {α : Type} (docs : List α) (b : Nat)
    (commit : Bool) (addErr : Nat → Bool) (commitErr : Bool) (k : Nat)
    (hk : k < (chunksList docs b).length)
    (hfail : addErr k = true)
    (hbefore : ∀ j, j < k → addErr j = false) :
    (batchAddRun docs b commit addErr commitErr).trace =
      ((chunksList docs b).take k).map (fun c => BatchEv.add c true)
        ++ [BatchEv.add ((docs.drop (k * b)).take b) false]
    ∧ (∀ q, BatchEv.commit q ∉ (batchAddRun docs b commit addErr commitErr).trace)
    ∧ (batchAddRun docs b commit addErr commitErr).errLogged = true := by
  have hgetk : (chunksList docs b)[k] = (docs.drop (k * b)).take b := by
    simp [chunksList]
  have hdecomp : chunksList docs b =
      (chunksList docs b).take k
        ++ (docs.drop (k * b)).take b :: (chunksList docs b).drop (k + 1) := by
    conv_lhs => rw [← List.take_append_drop k (chunksList docs b)]
    rw [List.drop_eq_getElem_cons hk, hgetk]
  have hlen : ((chunksList docs b).take k).length = k := by
    rw [List.length_take]
    omega
  have hbreak := runAddLoop_break addErr ((chunksList docs b).take k)
    ((docs.drop (k * b)).take b) ((chunksList docs b).drop (k + 1)) 0
    (fun j hj => by
      rw [hlen] at hj
      simpa using hbefore j hj)
    (by rw [hlen]; simpa using hfail)
  have hrun : runAddLoop addErr (chunksList docs b) 0 =
      (((chunksList docs b).take k).map (fun x => BatchEv.add x true)
        ++ [BatchEv.add ((docs.drop (k * b)).take b) false], false) := by
    conv_lhs => rw [hdecomp]
    exact hbreak
  have hie : docs.isEmpty = false := by
    cases docs with
    | nil => rw [chunksList_nil] at hk; simp at hk
    | cons a t => rfl
  unfold batchAddRun
  rw [hie, hrun]
  refine ⟨rfl, ?_, rfl⟩
  intro q hq
  simp at hq
  have hq2 := List.mem_of_mem_take hq
  simp at hq2

/-- Concrete instance of `batch_abort_on_failed_chunk`: four documents,
batch size two, the second add call fails. -/
theorem batch_abort_on_failed_chunk_witness :
    (batchAddRun [1, 2, 3, 4] 2 true (fun i => i == 1) false).trace =
      [BatchEv.add [1, 2] true, BatchEv.add [3, 4] false]
    ∧ (∀ q, BatchEv.commit q ∉ (batchAddRun [1, 2, 3, 4] 2 true (fun i => i == 1) false).trace)
    ∧ (batchAddRun [1, 2, 3, 4] 2 true (fun i => i == 1) false).errLogged = true := by
  have h := batch_abort_on_failed_chunk [1, 2, 3, 4] 2 true (fun i => i == 1) false 1
    (by decide) (by decide) (by decide)
  refine ⟨?_, h.2.1, h.2.2⟩
  rw [h.1]
  decide

/-- Did this client call raise?  (`ok = false` on an `add` or `commit`
event marks a pysolr exception.) -/
def evFailed {α : Type} : BatchEv α → Bool
  | BatchEv.add _ ok => !ok
  | BatchEv.commit ok => !ok
  | BatchEv.deleteByIds _ _ => false
  | BatchEv.deleteByQuery _ _ => false

/--
**C3 counterexample.**  A single-document batch add whose `client.add`
call raises a Solr error: the handler catches and logs the error
(batch.py lines 112-117) and returns normally, so `main` never reaches
its `except` (cli.py lines 299-304) and the process exits with status
`0` — not with a nonzero status as the claim states.
-/
theorem handler_error_exit_zero_cex :
    (batchAddRun [0] 1 true (fun _ => true) false).errLogged = true
    ∧ (batchAddRun [0] 1 true (fun _ => true) false).raised = false
    ∧ processExit (batchAddRun [0] 1 true (fun _ => true) false).raised = 0 := by
  refine ⟨rfl, rfl, rfl⟩

/--
**C3 (amended).**  For any positive batch size, errors raised by the
network client during the batch add/update operation are caught and
logged at the handler level, and the handler returns normally, so the
process exits with status `0`; only an exception that propagates out of
a handler is caught in `main` and makes the process exit with status
`1`.  (A zero batch size raises `ZeroDivisionError` outside the
handler's `try`, which propagates to `main` — the second conjunct's
case.)
-/
theorem handler_errors_logged_exit_status :
    (∀ (docs : List Nat) (b : Nat) (commit : Bool) (addErr : Nat → Bool)
       (commitErr : Bool), 0 < b →
       (batchAddRun docs b commit addErr commitErr).raised = false
       ∧ processExit (batchAddRun docs b commit addErr commitErr).raised = 0
       ∧ ((∃ ev ∈ (batchAddRun docs b commit addErr commitErr).trace,
             evFailed ev = true) →
          (batchAddRun docs b commit addErr commitErr).errLogged = true))
    ∧ processExit true = 1 := by
  refine ⟨?_, rfl⟩
  intro docs b commit addErr commitErr _
  by_cases hie : docs.isEmpty = true
  · refine ⟨?_, ?_, ?_⟩
    · unfold batchAddRun; rw [hie]; rfl
    · unfold batchAddRun; rw [hie]; rfl
    · intro _; unfold batchAddRun; rw [hie]; rfl
  · have hie' : docs.isEmpty = false := by simpa using hie
    by_cases hok : (runAddLoop addErr (chunksList docs b) 0).2 = true
    · by_cases hc : commit = true
      · refine ⟨?_, ?_, ?_⟩
        · unfold batchAddRun; rw [hie', hok, hc]; rfl
        · unfold batchAddRun; rw [hie', hok, hc]; rfl
        · intro hev
          unfold batchAddRun
          rw [hie', hok, hc]
          unfold batchAddRun at hev
          rw [hie', hok, hc] at hev
          simp only [if_true] at hev ⊢
          rcases hev with ⟨ev, hmem, hfail⟩
          have hmem2 : ev ∈ (runAddLoop addErr (chunksList docs b) 0).1
              ++ [BatchEv.commit (!commitErr)] := hmem
          rcases List.mem_append.mp hmem2 with hmem3 | hmem3
          · rcases runAddLoop_events_ok addErr (chunksList docs b) 0 hok ev hmem3
              with ⟨cx, hcx⟩
            rw [hcx] at hfail
            simp [evFailed] at hfail
          · rcases List.mem_singleton.mp hmem3 with rfl
            simp only [evFailed, Bool.not_not] at hfail
            exact hfail
      · have hc' : commit = false := by simpa using hc
        refine ⟨?_, ?_, ?_⟩
        · unfold batchAddRun; rw [hie', hok, hc']; rfl
        · unfold batchAddRun; rw [hie', hok, hc']; rfl
        · intro hev
          unfold batchAddRun at hev
          rw [hie', hok, hc'] at hev
          simp only at hev
          rcases hev with ⟨ev, hmem, hfail⟩
          have hmem2 : ev ∈ (runAddLoop addErr (chunksList docs b) 0).1 := hmem
          rcases runAddLoop_events_ok addErr (chunksList docs b) 0 hok ev hmem2
            with ⟨cx, hcx⟩
          rw [hcx] at hfail
          simp [evFailed] at hfail
    · have hok' : (runAddLoop addErr (chunksList docs b) 0).2 = false := by
        simpa using hok
      refine ⟨?_, ?_, ?_⟩
      · unfold batchAddRun; rw [hie', hok']; rfl
      · unfold batchAddRun; rw [hie', hok']; rfl
      · intro _; unfold batchAddRun; rw [hie', hok']; rfl

/-- Concrete instance of `handler_errors_logged_exit_status`: the failing
add call is logged and the process still exits `0`. -/
theorem handler_errors_logged_exit_status_witness :
    (batchAddRun [7] 1 false (fun _ => true) false).raised = false
    ∧ processExit (batchAddRun [7] 1 false (fun _ => true) false).raised = 0
    ∧ (batchAddRun [7] 1 false (fun _ => true) false).errLogged = true := by
  have h := handler_errors_logged_exit_status.1 [7] 1 false (fun _ => true) false
    (by decide)
  exact ⟨h.1, h.2.1, h.2.2 ⟨BatchEv.add [7] false, by decide, rfl⟩⟩

/--
**C4** (exhibit of the divergence).  `load_and_override_config` copies
the `--solr-url`, `--collection`, `--zk-hosts`, `--username` and
`--password` flags into the effective configuration, but never reads the
`--timeout` flag (utils.py lines 41-54 have no `timeout` branch), even
though cli.py's help text for `--timeout` says "Overrides config."  With
a profile timeout of `10` and `--timeout 99`, the client is initialized
with timeout `10`, not `99`.  For contrast, the final conjunct shows the
`--username` flag does override.
-/
theorem timeout_flag_not_applied :
    load_and_override_config
        { solr_url := some "http://host:8983/solr", collection := some "col",
          timeout := some 10 }
        { timeout := some 99 } true
      = some { solr_url := some "http://host:8983/solr", collection := some "col",
               timeout := some 10 }
    ∧ (initialize_solr_client
         { solr_url := some "http://host:8983/solr", collection := some "col",
           timeout := some 10 }
         "col" true).map SolrClientDesc.timeout = some 10
    ∧ (10 : Int) ≠ 99
    ∧ load_and_override_config
        { solr_url := some "http://host:8983/solr", collection := some "col" }
        { username := some "u" } true
      = some { solr_url := some "http://host:8983/solr", collection := some "col",
               username := some "u" } := by
  refine ⟨rfl, rfl, by decide, rfl⟩

/--
**C5.**  When no direct Solr URL is configured but ZooKeeper hosts are,
`get_admin_base_url` parses the chosen live-node znode name: a name of
the form `host:port_context` (splitting into exactly two parts on `':'`,
whose second part splits into exactly two parts on `'_'`) yields
`http://host:port/context`; any name that does not split into exactly
two parts on `':'`, or whose second part does not split into exactly two
parts on `'_'`, yields no URL.  The last conjunct ties the discovery to
the parser: with ZooKeeper configured and usable, the result is exactly
the parse of the chosen live node.
-/
theorem zk_live_node_url_parsing :
    (∀ (node host pc port ctx : String),
        pySplit node ':' = [host, pc] →
        pySplit pc '_' = [port, ctx] →
        parseLiveNodeName node = some ("http://" ++ host ++ ":" ++ port ++ "/" ++ ctx))
    ∧ (∀ node : String,
        (¬ ∃ host pc, pySplit node ':' = [host, pc]) →
        parseLiveNodeName node = none)
    ∧ (∀ (node host pc : String),
        pySplit node ':' = [host, pc] →
        (¬ ∃ port ctx, pySplit pc '_' = [port, ctx]) →
        parseLiveNodeName node = none)
    ∧ (∀ (cfg : ConnConfig) (kz zkErr : Bool) (nodes : List String) (pick : Nat),
        strTruthy cfg.solr_url = false → strTruthy cfg.zk_hosts = true →
        kz = true → zkErr = false → nodes ≠ [] →
        get_admin_base_url cfg kz zkErr nodes pick =
          parseLiveNodeName (nodes.getD (pick % nodes.length) "")) := by
  refine ⟨?_, ?_, ?_, ?_⟩
  · intro node host pc port ctx h1 h2
    unfold parseLiveNodeName
    rw [h1]
    show (match pySplit pc '_' with
      | [port, context] => some ("http://" ++ host ++ ":" ++ port ++ "/" ++ context)
      | _ => none) = _
    rw [h2]
  · intro node h
    unfold parseLiveNodeName
    match hs : pySplit node ':' with
    | [] => rfl
    | [_] => rfl
    | [a, bp] => exact absurd ⟨a, bp, hs⟩ h
    | _ :: _ :: _ :: _ => rfl
  · intro node host pc h1 h2
    unfold parseLiveNodeName
    rw [h1]
    show (match pySplit pc '_' with
      | [port, context] => some ("http://" ++ host ++ ":" ++ port ++ "/" ++ context)
      | _ => none) = none
    match hs : pySplit pc '_' with
    | [] => rfl
    | [_] => rfl
    | [a, bp] => exact absurd ⟨a, bp, hs⟩ h2
    | _ :: _ :: _ :: _ => rfl
  · intro cfg kz zkErr nodes pick h1 h2 h3 h4 h5
    unfold get_admin_base_url
    rw [h1, h2, h3, h4]
    have h6 : nodes.isEmpty = false := by
      cases nodes with
      | nil => exact absurd rfl h5
      | cons a t => rfl
    rw [h6]
    rfl

/-- Concrete instances of `zk_live_node_url_parsing`: a well-formed and
a malformed znode name (the malformed one has no `':'` at all, so it
splits into a single part). -/
theorem zk_live_node_url_parsing_witness :
    parseLiveNodeName "10.0.0.1:8983_solr" = some "http://10.0.0.1:8983/solr"
    ∧ parseLiveNodeName "badnodeformat" = none := by
  constructor
  · exact zk_live_node_url_parsing.1 "10.0.0.1:8983_solr" "10.0.0.1" "8983_solr"
      "8983" "solr" rfl rfl
  · refine zk_live_node_url_parsing.2.1 "badnodeformat" ?_
    rintro ⟨host, pc, he⟩
    have hs : pySplit "badnodeformat" ':' = ["badnodeformat"] := rfl
    rw [hs] at he
    simp at he

/--
**C7.**  The wrapper passes the delete-by-query request through
unchanged: whenever the delete branch of `batch_operations` issues a
delete-by-query client call, the query string handed to `client.delete`
is exactly the string supplied in the `--query` argument, and the commit
flag is the one requested.
-/
theorem delete_query_passthrough (α : Type)
    (idFileContent : Option (Option (List String))) (ids : Option String)
    (query : Option String) (commit : Bool) (q : String) (c : Bool)
    (h : BatchEv.deleteByQuery q c ∈ batchDeleteRun α idFileContent ids query commit) :
    query = some q ∧ c = commit := by
  unfold batchDeleteRun at h
  match hp : parseIds idFileContent ids with
  | none => rw [hp] at h; simp at h
  | some docIds =>
      rw [hp] at h
      by_cases he : docIds.isEmpty = true
      · simp only [he, Bool.not_true, Bool.false_eq_true, if_false] at h
        cases query with
        | none => simp at h
        | some q0 =>
            by_cases hq0 : (q0 != "") = true
            · simp only [hq0, if_true] at h
              rw [List.mem_singleton] at h
              injection h with h1 h2
              exact ⟨by rw [h1], h2⟩
            · have hq0' : (q0 != "") = false := by simpa using hq0
              simp [hq0'] at h
      · have he' : docIds.isEmpty = false := by simpa using he
        simp only [he', Bool.not_false, if_true] at h
        rw [List.mem_singleton] at h
        exact absurd h (by simp)

/-- Concrete instance of `delete_query_passthrough`: the query
`category:product AND inStock:true` is handed through verbatim. -/
theorem delete_query_passthrough_witness :
    (some "category:product AND inStock:true" : Option String)
      = some "category:product AND inStock:true" ∧ true = true :=
  delete_query_passthrough Nat none none
    (some "category:product AND inStock:true") true
    "category:product AND inStock:true" true (by decide)

theorem createRun_cases (name cs : String) (overwrite : Bool) (cfg : ConnConfig)
    (checkRaises : Bool) (serverCols : List String) (deleteOk createOk : Bool) :
    (createRun name cs overwrite cfg checkRaises serverCols deleteOk createOk = []
      ∧ (name = "" ∨ cs = "" ∨ baseSolrUrl cfg = none))
    ∨ (name ≠ "" ∧ cs ≠ "" ∧
        ((!checkRaises && serverCols.contains name) = true ∧ overwrite = true
           ∧ createRun name cs overwrite cfg checkRaises serverCols deleteOk createOk
               = [CEvent.list true, CEvent.delete deleteOk, CEvent.create createOk]
         ∨ (!checkRaises && serverCols.contains name) = true ∧ overwrite = false
           ∧ createRun name cs overwrite cfg checkRaises serverCols deleteOk createOk
               = [CEvent.list true]
         ∨ (!checkRaises && serverCols.contains name) = false
           ∧ createRun name cs overwrite cfg checkRaises serverCols deleteOk createOk
               = [CEvent.list (!checkRaises), CEvent.create createOk])) := by
  by_cases h1 : name = ""
  · refine Or.inl ⟨?_, Or.inl h1⟩
    unfold createRun
    rw [if_pos h1]
  · by_cases h2 : cs = ""
    · refine Or.inl ⟨?_, Or.inr (Or.inl h2)⟩
      unfold createRun
      rw [if_neg h1, if_pos h2]
    · cases hurl : baseSolrUrl cfg with
      | none =>
          refine Or.inl ⟨?_, Or.inr (Or.inr rfl)⟩
          unfold createRun
          rw [if_neg h1, if_neg h2, hurl]
      | some u =>
          have heq : createRun name cs overwrite cfg checkRaises serverCols deleteOk createOk
              = (if (!checkRaises && serverCols.contains name) = true then
                   (if overwrite = true then
                      [CEvent.list true, CEvent.delete deleteOk, CEvent.create createOk]
                    else [CEvent.list true])
                 else [CEvent.list (!checkRaises), CEvent.create createOk]) := by
            unfold createRun
            rw [if_neg h1, if_neg h2, hurl]
          refine Or.inr ⟨h1, h2, ?_⟩
          by_cases hex : (!checkRaises && serverCols.contains name) = true
          · by_cases hov : overwrite = true
            · exact Or.inl ⟨hex, hov, by rw [heq, if_pos hex, if_pos hov]⟩
            · exact Or.inr (Or.inl ⟨hex, by simpa using hov,
                by rw [heq, if_pos hex, if_neg hov]⟩)
          · have hex' : (!checkRaises && serverCols.contains name) = false := by
              simpa using hex
            exact Or.inr (Or.inr ⟨hex', by rw [heq, if_neg hex]⟩)

/--
**C6 counterexample.**  The claim says a failed existence-check request
aborts the create command with no CREATE request.  In the code,
`_check_collection_exists` catches the exception and returns `False`
(create.py lines 40-42), so `create_collection` treats the collection as
absent and proceeds: with a failing LIST request, the trace is the
failed check followed by a CREATE request.
-/
theorem create_after_failed_check_cex :
    createRun "col" "_default" false
        { solr_url := some "http://host:8983/solr" } true ["col"] true true
      = [CEvent.list false, CEvent.create true]
    ∧ CEvent.create true ∈ createRun "col" "_default" false
        { solr_url := some "http://host:8983/solr" } true ["col"] true true := by
  refine ⟨rfl, ?_⟩
  decide

/--
**C6 (amended).**  Once the CREATE request is sent, no further request
follows in that create invocation (the CREATE is always the last
request of any create trace that contains one); but a failed
collection-existence check does not abort the command: the check
reports the collection as non-existing, and create proceeds to send the
CREATE request as the only further request (in particular no DELETE,
since the collection is treated as absent).
-/
theorem create_failed_check_proceeds :
    (∀ (name cs : String) (cfg : ConnConfig) (serverCols : List String)
       (deleteOk createOk overwrite : Bool),
       name ≠ "" → cs ≠ "" → strTruthy cfg.solr_url = true →
       createRun name cs overwrite cfg true serverCols deleteOk createOk
         = [CEvent.list false, CEvent.create createOk])
    ∧ (∀ (name cs : String) (overwrite : Bool) (cfg : ConnConfig)
       (checkRaises : Bool) (serverCols : List String)
       (deleteOk createOk ok : Bool),
       CEvent.create ok ∈
         createRun name cs overwrite cfg checkRaises serverCols deleteOk createOk →
       (createRun name cs overwrite cfg checkRaises serverCols deleteOk createOk).getLast?
         = some (CEvent.create ok)) := by
  constructor
  · intro name cs cfg serverCols deleteOk createOk overwrite hname hcs hurl
    unfold createRun baseSolrUrl
    rw [if_neg hname, if_neg hcs, hurl]
    rfl
  · intro name cs overwrite cfg checkRaises serverCols deleteOk createOk ok h
    rcases createRun_cases name cs overwrite cfg checkRaises serverCols deleteOk createOk with
      ⟨heq, _⟩ | ⟨_, _, ⟨_, _, heq⟩ | ⟨_, _, heq⟩ | ⟨_, heq⟩⟩
    · rw [heq] at h; simp at h
    · rw [heq] at h ⊢
      simp only [List.mem_cons, List.not_mem_nil, or_false] at h
      rcases h with h | h | h
      · exact absurd h (by simp)
      · exact absurd h (by simp)
      · injection h with h3
        rw [h3]
        rfl
    · rw [heq] at h; simp at h
    · rw [heq] at h ⊢
      simp only [List.mem_cons, List.not_mem_nil, or_false] at h
      rcases h with h | h
      · exact absurd h (by simp)
      · injection h with h3
        rw [h3]
        rfl

/-- Concrete instance of `create_failed_check_proceeds`. -/
theorem create_failed_check_proceeds_witness :
    createRun "col" "_default" false { solr_url := some "http://host:8983/solr" }
        true [] true false
      = [CEvent.list false, CEvent.create false]
    ∧ (createRun "col" "_default" true { solr_url := some "http://host:8983/solr" }
        false ["col"] true true).getLast? = some (CEvent.create true) := by
  constructor
  · exact create_failed_check_proceeds.1 "col" "_default"
      { solr_url := some "http://host:8983/solr" } [] true false false
      (by decide) (by decide) rfl
  · exact create_failed_check_proceeds.2 "col" "_default" true
      { solr_url := some "http://host:8983/solr" } false ["col"] true true true
      (by decide)

/--
**C8.**  The ID-parsing helper `_parse_ids` only ever returns IDs that
are non-empty and carry no leading or trailing whitespace (each ID is
stripped and empty entries are dropped), and it returns the empty list
when neither `--ids` nor `--id-file` is provided.
-/
theorem parse_ids_clean :
    parseIds none none = some []
    ∧ (∀ (fc : Option (Option (List String))) (ids : Option String)
         (out : List String) (s : String),
         parseIds fc ids = some out → s ∈ out →
         s ≠ "" ∧ (∀ c, s.data.head? = some c → pyWS c = false)
           ∧ (∀ c, s.data.getLast? = some c → pyWS c = false)) := by
  refine ⟨rfl, ?_⟩
  intro fc ids out s hout hs
  unfold parseIds at hout
  match fc with
  | some (some lines) =>
      have h1 : out = (lines.filter (fun line => pyStrip line != "")).map pyStrip :=
        (Option.some.inj hout).symm
      rw [h1] at hs
      exact mem_strip_filter_map hs
  | some none => simp at hout
  | none =>
      match ids with
      | none =>
          have h1 : out = [] := (Option.some.inj hout).symm
          rw [h1] at hs
          simp at hs
      | some str =>
          dsimp only at hout
          by_cases hstr : (str != "") = true
          · rw [if_pos hstr] at hout
            have h1 : out = ((pySplit str ',').filter (fun i => pyStrip i != "")).map pyStrip :=
              (Option.some.inj hout).symm
            rw [h1] at hs
            exact mem_strip_filter_map hs
          · rw [if_neg hstr] at hout
            have h1 : out = [] := (Option.some.inj hout).symm
            rw [h1] at hs
            simp at hs

/-- Concrete instance of `parse_ids_clean`: `--ids "  a  , ,b"` parses
to `["a", "b"]`, whose first element is non-empty and stripped. -/
theorem parse_ids_clean_witness :
    parseIds none (some "  a  , ,b") = some ["a", "b"]
    ∧ "a" ≠ "" ∧ (∀ c, "a".data.head? = some c → pyWS c = false)
    ∧ (∀ c, "a".data.getLast? = some c → pyWS c = false) := by
  have h := parse_ids_clean.2 none (some "  a  , ,b") ["a", "b"] "a" rfl
    (by simp)
  exact ⟨rfl, h.1, h.2.1, h.2.2⟩

/--
**C9.**  If the target collection already exists (the check succeeded
and reported it) and `--overwrite` is not set, `create_collection`
returns without issuing any CREATE or DELETE request; and a DELETE
request is issued only when both `--overwrite` is set and the existence
check reported the collection as existing.
-/
theorem create_exists_no_overwrite_frame :
    (∀ (name cs : String) (cfg : ConnConfig) (serverCols : List String)
       (deleteOk createOk : Bool),
       name ∈ serverCols →
       (∀ ok, CEvent.create ok ∉
          createRun name cs false cfg false serverCols deleteOk createOk)
       ∧ (∀ ok, CEvent.delete ok ∉
          createRun name cs false cfg false serverCols deleteOk createOk))
    ∧ (∀ (name cs : String) (overwrite : Bool) (cfg : ConnConfig)
       (checkRaises : Bool) (serverCols : List String) (deleteOk createOk ok : Bool),
       CEvent.delete ok ∈
         createRun name cs overwrite cfg checkRaises serverCols deleteOk createOk →
       overwrite = true ∧ checkRaises = false ∧ name ∈ serverCols) := by
  constructor
  · intro name cs cfg serverCols deleteOk createOk hmem
    have hcont : serverCols.contains name = true := by simpa using hmem
    rcases createRun_cases name cs false cfg false serverCols deleteOk createOk with
      ⟨heq, _⟩ | ⟨_, _, ⟨_, hov, _⟩ | ⟨_, _, heq⟩ | ⟨hex, _⟩⟩
    · rw [heq]
      exact ⟨fun ok => List.not_mem_nil _, fun ok => List.not_mem_nil _⟩
    · exact absurd hov (by simp)
    · rw [heq]
      constructor <;> intro ok h <;> simp at h
    · rw [Bool.not_false, Bool.true_and] at hex
      rw [hex] at hcont
      simp at hcont
  · intro name cs overwrite cfg checkRaises serverCols deleteOk createOk ok h
    rcases createRun_cases name cs overwrite cfg checkRaises serverCols deleteOk createOk with
      ⟨heq, _⟩ | ⟨_, _, ⟨hex, hov, heq⟩ | ⟨_, _, heq⟩ | ⟨_, heq⟩⟩
    · rw [heq] at h; simp at h
    · have hex' : checkRaises = false ∧ name ∈ serverCols := by simpa using hex
      exact ⟨hov, hex'.1, hex'.2⟩
    · rw [heq] at h; simp at h
    · rw [heq] at h; simp at h

/-- Concrete instance of `create_exists_no_overwrite_frame`: the
collection exists, `--overwrite` is unset, and the trace carries no
CREATE and no DELETE. -/
theorem create_exists_no_overwrite_frame_witness :
    CEvent.create true ∉ createRun "col" "_default" false
        { solr_url := some "http://host:8983/solr" } false ["col"] true true
    ∧ CEvent.delete true ∉ createRun "col" "_default" false
        { solr_url := some "http://host:8983/solr" } false ["col"] true true := by
  have h := create_exists_no_overwrite_frame.1 "col" "_default"
    { solr_url := some "http://host:8983/solr" } ["col"] true true (by simp)
  exact ⟨h.1 true, h.2 true⟩

/--
**C10.**  The `list` command prints the collection names in sorted
order: the printed output is invariant under any permutation of the
collection list returned by the server.
-/
theorem list_output_perm_invariant (l l2 : List String) (h : l.Perm l2) :
    listPrintedLines l = listPrintedLines l2 := by
  unfold listPrintedLines
  by_cases he : l = []
  · subst he
    have he2 : l2 = [] := h.symm.eq_nil
    subst he2
    rfl
  · have he2 : l2 ≠ [] := fun h2 => he (by rw [h2] at h; exact h.eq_nil)
    have hi1 : l.isEmpty = false := by
      cases l with
      | nil => exact absurd rfl he
      | cons a t => rfl
    have hi2 : l2.isEmpty = false := by
      cases l2 with
      | nil => exact absurd rfl he2
      | cons a t => rfl
    rw [hi1, hi2]
    have hsorted : List.insertionSort (fun a b => a ≤ b) l
        = List.insertionSort (fun a b => a ≤ b) l2 := by
      have hperm : (List.insertionSort (fun a b : String => a ≤ b) l).Perm
          (List.insertionSort (fun a b : String => a ≤ b) l2) :=
        (List.perm_insertionSort _ l).trans (h.trans (List.perm_insertionSort _ l2).symm)
      exact List.eq_of_perm_of_sorted hperm
        (List.sorted_insertionSort _ l) (List.sorted_insertionSort _ l2)
    rw [hsorted]

/-- Concrete instance of `list_output_perm_invariant`: two orderings of
the same two collections print identically. -/
theorem list_output_perm_invariant_witness :
    listPrintedLines ["b", "a"] = listPrintedLines ["a", "b"] :=
  list_output_perm_invariant ["b", "a"] ["a", "b"] (List.Perm.swap "a" "b" [])
